import Mathlib

/-!
Verification of the Back-testing repository's capital-allocation and
trade-simulation core (`stock_allocator.py`, `real_algorithm_engine.py`).
Python floats are modelled as exact rationals; `round(x, 2)` is modelled by
round-half-to-even at two decimals; `math.floor` by `Int.floor`; `int(x)`
by truncation toward zero.
-/

namespace Backtest

/-- Round-half-to-even to the nearest integer, as Python's builtin `round`. -/
def rhe (q : ℚ) : ℤ :=
  let n := ⌊q⌋
  let f := q - n
  if f < 1/2 then n
  else if 1/2 < f then n + 1
  else if n % 2 = 0 then n else n + 1

/-- Python's `round(x, 2)`: round half to even at two decimal places. -/
def round2 (q : ℚ) : ℚ := (rhe (100 * q) : ℚ) / 100

/-- Python's `int(x)`: truncation toward zero. -/
def pytrunc (q : ℚ) : ℤ := if 0 ≤ q then ⌊q⌋ else ⌈q⌉

/-- Directional bias of a suggestion. -/
inductive Bias where
  | BULLISH
  | BEARISH
deriving DecidableEq, Repr

/-- One stock dictionary flowing through `StockAllocator.allocate_capital`.
The base fields are present on entry; the `Option` fields model the dict
keys the allocator adds in place during its seven steps. -/
structure Stock where
  symbol : String
  entry_price : ℚ
  confidence : ℚ
  bias : Bias
  weight : Option ℚ := none
  loss_cap : Option ℚ := none
  stop_loss : Option ℚ := none
  target : Option ℚ := none
  raw_quantity : Option ℚ := none
  quantity : Option ℤ := none
  capital_allocated : Option ℚ := none
  max_loss : Option ℚ := none
  target_profit : Option ℚ := none
deriving DecidableEq, Repr

/-- Configuration of `StockAllocator` (`__init__`). -/
structure AllocConfig where
  total_capital : ℚ
  basket_loss_percent : ℚ
  basket_profit_percent : ℚ
  risk_reward : ℚ
  stop_loss_percent : ℚ
  capital_cap_percent : ℚ
deriving DecidableEq, Repr

/-- STEP 1 of `allocate_capital`: normalize weights from AI confidence
(`stock['weight'] = confidence / total_confidence if total_confidence > 0
else 1.0 / len(stocks)`). -/
def step1 (S : ℚ) (n : ℕ) (st : Stock) : Stock :=
  { st with weight := some (if 0 < S then st.confidence / S else 1 / (n : ℚ)) }

/-- STEP 2: per-stock loss cap (`loss_cap = max_basket_loss * weight`). -/
def step2 (maxBasketLoss : ℚ) (st : Stock) : Stock :=
  { st with loss_cap := some (maxBasketLoss * st.weight.getD 0) }

/-- The Allocator's stop-loss level for a given entry price and bias
(STEP 3 of `allocate_capital`). -/
def allocStop (cfg : AllocConfig) (entry : ℚ) (bias : Bias) : ℚ :=
  match bias with
  | Bias.BULLISH => entry * (1 - cfg.stop_loss_percent / 100)
  | Bias.BEARISH => entry * (1 + cfg.stop_loss_percent / 100)

/-- The Allocator's target level: entry moved by `risk_reward` times the
risk per share, in the direction of the bias (STEP 3). -/
def allocTarget (cfg : AllocConfig) (entry : ℚ) (bias : Bias) : ℚ :=
  match bias with
  | Bias.BULLISH => entry + (entry - allocStop cfg entry Bias.BULLISH) * cfg.risk_reward
  | Bias.BEARISH => entry - (allocStop cfg entry Bias.BEARISH - entry) * cfg.risk_reward

/-- STEP 3: stop and target derivation from `stop_loss_percent` and the
risk-reward multiplier. -/
def step3 (cfg : AllocConfig) (st : Stock) : Stock :=
  { st with stop_loss := some (allocStop cfg st.entry_price st.bias),
            target := some (allocTarget cfg st.entry_price st.bias) }

/-- STEP 4: raw quantity from risk (`loss_cap / risk_per_share`, 0 when the
risk per share is not positive). -/
def step4 (st : Stock) : Stock :=
  let rps := |st.entry_price - st.stop_loss.getD 0|
  { st with
      raw_quantity := some (if 0 < rps then st.loss_cap.getD 0 / rps else 0) }

/-- STEP 5: capital cap per stock, floored to an integer share count; a
floored 0 is forced to 1 when one share fits under the cap. -/
def step5 (maxCapPerStock : ℚ) (st : Stock) : Stock :=
  let entry := st.entry_price
  let capped := min (st.raw_quantity.getD 0)
      (if 0 < entry then maxCapPerStock / entry else 0)
  let fq := ⌊capped⌋
  let q : ℤ := if 0 < fq then fq else (if entry ≤ maxCapPerStock then 1 else 0)
  { st with quantity := some q }

/-- STEP 6 body: scale one stock's quantity by `scale` and re-floor. -/
def step6 (scale : ℚ) (st : Stock) : Stock :=
  { st with quantity := some ⌊(st.quantity.getD 0 : ℚ) * scale⌋ }

/-- STEP 7: final allocation details per stock. -/
def step7 (st : Stock) : Stock :=
  { st with
      capital_allocated := some ((st.quantity.getD 0 : ℚ) * st.entry_price),
      max_loss := some ((st.quantity.getD 0 : ℚ) *
        |st.entry_price - st.stop_loss.getD 0|),
      target_profit := some ((st.quantity.getD 0 : ℚ) *
        |st.target.getD 0 - st.entry_price|) }

/-- Capital used by a list of stocks: `sum(quantity * entry_price)`. -/
def capitalUsed (l : List Stock) : ℚ :=
  (l.map (fun st => (st.quantity.getD 0 : ℚ) * st.entry_price)).sum

/-- Steps 1-7 of `StockAllocator.allocate_capital`, i.e. everything the
method does to the input list of dicts before the final zero-quantity
filter.  Each Python `for` loop over `stocks` is a `List.map`. -/
def allocate_steps (cfg : AllocConfig) (stocks : List Stock) : List Stock :=
  let S := (stocks.map (·.confidence)).sum
  let n := stocks.length
  let l1 := stocks.map (step1 S n)
  let maxBasketLoss := cfg.total_capital * (cfg.basket_loss_percent / 100)
  let l2 := l1.map (step2 maxBasketLoss)
  let l3 := l2.map (step3 cfg)
  let l4 := l3.map step4
  let maxCapPerStock := cfg.total_capital * (cfg.capital_cap_percent / 100)
  let l5 := l4.map (step5 maxCapPerStock)
  let used := capitalUsed l5
  let l6 := if cfg.total_capital < used
    then l5.map (step6 (cfg.total_capital / used))
    else l5
  l6.map step7

/-- `StockAllocator.allocate_capital`: the 7-step pipeline followed by the
filter dropping stocks whose final quantity is 0. -/
def allocate_capital (cfg : AllocConfig) (stocks : List Stock) : List Stock :=
  if stocks.isEmpty then []
  else (allocate_steps cfg stocks).filter (fun st => 0 < st.quantity.getD 0)

/-- The state of one stock dictionary after steps 1-5, as a function of the
original input list (which fixes the shared quantities `S`, `N`, the basket
loss and the per-stock capital cap). -/
def stage5 (cfg : AllocConfig) (stocks : List Stock) (st : Stock) : Stock :=
  step5 (cfg.total_capital * (cfg.capital_cap_percent / 100))
    (step4 (step3 cfg (step2 (cfg.total_capital * (cfg.basket_loss_percent / 100))
      (step1 ((stocks.map (·.confidence)).sum) stocks.length st))))

/-- `capital_used` as recomputed after step 5 (the value tested in step 6). -/
def used5 (cfg : AllocConfig) (stocks : List Stock) : ℚ :=
  capitalUsed (stocks.map (stage5 cfg stocks))

/-- The state of one stock dictionary at the end of step 7. -/
def stageF (cfg : AllocConfig) (stocks : List Stock) (st : Stock) : Stock :=
  step7 (if cfg.total_capital < used5 cfg stocks
    then step6 (cfg.total_capital / used5 cfg stocks) (stage5 cfg stocks st)
    else stage5 cfg stocks st)

/-- Integer quantity of one stock after step 5. -/
def q5 (cfg : AllocConfig) (stocks : List Stock) (st : Stock) : ℤ :=
  (stage5 cfg stocks st).quantity.getD 0

/-- Integer quantity of one stock after the step-6 rescale (if any). -/
def qF (cfg : AllocConfig) (stocks : List Stock) (st : Stock) : ℤ :=
  if cfg.total_capital < used5 cfg stocks
  then ⌊(q5 cfg stocks st : ℚ) * (cfg.total_capital / used5 cfg stocks)⌋
  else q5 cfg stocks st

/-- A trade dictionary as read by `calculate_expectancy` (field `net_pnl`). -/
structure Trade where
  net_pnl : ℚ
deriving DecidableEq, Repr

/-- Result dictionary of `calculate_expectancy`; `wins`/`losses` are absent
(`none`) in the degenerate no-trades branch. -/
structure ExpectancyResult where
  win_rate : ℚ
  avg_win : ℚ
  avg_loss : ℚ
  expectancy : ℚ
  signal_strength : ℚ
  total_trades : ℕ
  wins : Option ℕ
  losses : Option ℕ
deriving DecidableEq, Repr

/-- `calculate_expectancy` from `stock_allocator.py`. -/
def calculate_expectancy (trades : List Trade) : ExpectancyResult :=
  if trades.isEmpty then
    { win_rate := 0, avg_win := 0, avg_loss := 0, expectancy := 0,
      signal_strength := 0, total_trades := 0, wins := none, losses := none }
  else
    let winsL := (trades.filter (fun t => 0 < t.net_pnl)).map (·.net_pnl)
    let lossesL := (trades.filter (fun t => t.net_pnl < 0)).map (·.net_pnl)
    let win_rate : ℚ := (winsL.length : ℚ) / (trades.length : ℚ)
    let loss_rate : ℚ := (lossesL.length : ℚ) / (trades.length : ℚ)
    let avg_win : ℚ := if winsL.isEmpty then 0 else winsL.sum / (winsL.length : ℚ)
    let avg_loss : ℚ :=
      if lossesL.isEmpty then 0 else |lossesL.sum / (lossesL.length : ℚ)|
    let expectancy := win_rate * avg_win - loss_rate * avg_loss
    { win_rate := win_rate * 100, avg_win := avg_win, avg_loss := avg_loss,
      expectancy := expectancy, signal_strength := max 0 expectancy,
      total_trades := trades.length,
      wins := some winsL.length, losses := some lossesL.length }

/-- One OHLC candle; `Time` is a time-of-day (totally ordered, e.g. seconds
since midnight), mirroring the parsed `HH:MM:SS` strings of the source. -/
structure Candle where
  Time : ℕ
  Open : ℚ
  High : ℚ
  Low : ℚ
  Close : ℚ
deriving DecidableEq, Repr

/-- Configuration of `RealAlgorithmEngine` (`__init__`), time strings parsed
to time-of-day values. -/
structure EngineConfig where
  daily_capital : ℚ
  capital_per_trade : ℚ
  stop_loss_percent : ℚ
  target_percent : ℚ
  slippage_percent : ℚ
  transaction_cost_percent : ℚ
  entry_start : ℕ
  force_exit_time : ℕ
deriving DecidableEq, Repr

/-- The dictionary returned by `calculate_entry`. -/
structure EntryDetails where
  symbol : String
  entry_time : ℕ
  entry_price : ℚ
  quantity : ℤ
  bias : Bias
  stop_loss : ℚ
  target : ℚ
  invested_amount : ℚ
deriving DecidableEq, Repr

/-- Slippage-adjusted entry price: against the trader at entry
(BULLISH pays up, BEARISH receives less). -/
def entryPriceRaw (cfg : EngineConfig) (base : ℚ) (bias : Bias) : ℚ :=
  match bias with
  | Bias.BULLISH => base * (1 + cfg.slippage_percent / 100)
  | Bias.BEARISH => base * (1 - cfg.slippage_percent / 100)

/-- `calculate_entry`'s stop-loss level before rounding. -/
def stopRaw (cfg : EngineConfig) (ep : ℚ) (bias : Bias) : ℚ :=
  match bias with
  | Bias.BULLISH => ep * (1 - cfg.stop_loss_percent / 100)
  | Bias.BEARISH => ep * (1 + cfg.stop_loss_percent / 100)

/-- `calculate_entry`'s target level before rounding. -/
def targetRaw (cfg : EngineConfig) (ep : ℚ) (bias : Bias) : ℚ :=
  match bias with
  | Bias.BULLISH => ep * (1 + cfg.target_percent / 100)
  | Bias.BEARISH => ep * (1 - cfg.target_percent / 100)

/-- `RealAlgorithmEngine.calculate_entry`: first candle at or after
`entry_start`, slippage-adjusted open, truncated quantity, stop/target from
the configured percents; `none` when no entry candle exists or the quantity
truncates to 0. -/
def calculate_entry (cfg : EngineConfig) (symbol : String)
    (candles : List Candle) (bias : Bias) : Option EntryDetails :=
  match candles.find? (fun c => cfg.entry_start ≤ c.Time) with
  | none => none
  | some ec =>
    let entry_price := entryPriceRaw cfg ec.Open bias
    let quantity := pytrunc (cfg.capital_per_trade / entry_price)
    if quantity = 0 then none
    else some
      { symbol := symbol
        entry_time := ec.Time
        entry_price := round2 entry_price
        quantity := quantity
        bias := bias
        stop_loss := round2 (stopRaw cfg entry_price bias)
        target := round2 (targetRaw cfg entry_price bias)
        invested_amount := round2 (entry_price * quantity) }

/-- Exit reasons of the simulator. -/
inductive ExitReason where
  | STOP_LOSS
  | TARGET
  | FORCE_EXIT_EOD
deriving DecidableEq, Repr

/-- Outcome label on a trade record. -/
inductive Outcome where
  | PROFIT
  | LOSS
  | BREAKEVEN
deriving DecidableEq, Repr

/-- Does this candle cross the stop level (checked first in the scan)? -/
def hitsStop (bias : Bias) (stop : ℚ) (c : Candle) : Bool :=
  match bias with
  | Bias.BULLISH => c.Low ≤ stop
  | Bias.BEARISH => stop ≤ c.High

/-- Does this candle cross the target level? -/
def hitsTarget (bias : Bias) (tgt : ℚ) (c : Candle) : Bool :=
  match bias with
  | Bias.BULLISH => tgt ≤ c.High
  | Bias.BEARISH => c.Low ≤ tgt

/-- The candle-by-candle loop of `simulate_trade` over the candles after the
entry candle: force exit at the close once `force_exit_time` is reached,
otherwise stop before target; `none` when the loop exhausts the list. -/
def scanExit (cfg : EngineConfig) (bias : Bias) (stop tgt : ℚ) :
    List Candle → Option (ℚ × ℕ × ExitReason)
  | [] => none
  | c :: rest =>
    if cfg.force_exit_time ≤ c.Time then
      some (c.Close, c.Time, ExitReason.FORCE_EXIT_EOD)
    else if hitsStop bias stop c then
      some (stop, c.Time, ExitReason.STOP_LOSS)
    else if hitsTarget bias tgt c then
      some (tgt, c.Time, ExitReason.TARGET)
    else scanExit cfg bias stop tgt rest

/-- Slippage-adjusted exit price: against the trader at exit (opposite sign
convention from entry). -/
def exitAdjust (cfg : EngineConfig) (bias : Bias) (p : ℚ) : ℚ :=
  match bias with
  | Bias.BULLISH => p * (1 - cfg.slippage_percent / 100)
  | Bias.BEARISH => p * (1 + cfg.slippage_percent / 100)

/-- The completed trade dictionary built by `simulate_trade`. -/
structure TradeRecord where
  date : String
  symbol : String
  bias : Bias
  entry_time : ℕ
  entry_price : ℚ
  exit_time : ℕ
  exit_price : ℚ
  quantity : ℤ
  invested_amount : ℚ
  stop_loss : ℚ
  target : ℚ
  exit_reason : ExitReason
  gross_pnl : ℚ
  transaction_cost : ℚ
  net_pnl : ℚ
  profit_or_loss : Outcome
deriving DecidableEq, Repr

/-- Gross P&L before costs, from the slippage-adjusted exit price. -/
def grossPnl (bias : Bias) (entry exitp : ℚ) (qty : ℤ) : ℚ :=
  match bias with
  | Bias.BULLISH => (exitp - entry) * qty
  | Bias.BEARISH => (entry - exitp) * qty

/-- The record-building tail of `simulate_trade`, given the raw (pre-slippage)
exit price, exit time and reason found by the scan. -/
def mkRecord (cfg : EngineConfig) (ed : EntryDetails) (date : String)
    (rawExit : ℚ × ℕ × ExitReason) : TradeRecord :=
  let exitp := exitAdjust cfg ed.bias rawExit.1
  let gross := grossPnl ed.bias ed.entry_price exitp ed.quantity
  let cost := ed.invested_amount * 2 * (cfg.transaction_cost_percent / 100)
  let net := gross - cost
  { date := date
    symbol := ed.symbol
    bias := ed.bias
    entry_time := ed.entry_time
    entry_price := round2 ed.entry_price
    exit_time := rawExit.2.1
    exit_price := round2 exitp
    quantity := ed.quantity
    invested_amount := round2 ed.invested_amount
    stop_loss := round2 ed.stop_loss
    target := round2 ed.target
    exit_reason := rawExit.2.2
    gross_pnl := round2 gross
    transaction_cost := round2 cost
    net_pnl := round2 net
    profit_or_loss :=
      if 0 < net then Outcome.PROFIT
      else if net < 0 then Outcome.LOSS else Outcome.BREAKEVEN }

/-- Default candle used only to give `List.getLastD` a value on a list the
control flow has already shown non-empty (mirrors `iloc[-1]`). -/
def dummyCandle : Candle := { Time := 0, Open := 0, High := 0, Low := 0, Close := 0 }

/-- `RealAlgorithmEngine.simulate_trade`: locate the entry candle by exact
time match (`none` when absent), scan the following candles for an exit,
fall back to a forced exit at the last candle's close, then build the
record. -/
def simulate_trade (cfg : EngineConfig) (ed : EntryDetails)
    (candles : List Candle) (date : String) : Option TradeRecord :=
  match candles.findIdx? (fun c => c.Time = ed.entry_time) with
  | none => none
  | some entryIdx =>
    let rawExit :=
      match scanExit cfg ed.bias ed.stop_loss ed.target
          (candles.drop (entryIdx + 1)) with
      | some r => r
      | none =>
        let last := candles.getLastD dummyCandle
        (last.Close, last.Time, ExitReason.FORCE_EXIT_EOD)
    some (mkRecord cfg ed date rawExit)

/-! ### Supporting lemmas -/

theorem rhe_le_add_half (q : ℚ) : (rhe q : ℚ) ≤ q + 1/2 := by
  unfold rhe
  set n := ⌊q⌋ with hn
  have hfl : (n : ℚ) ≤ q := Int.floor_le q
  by_cases h1 : q - n < 1/2
  · simp only [h1, if_true]
    linarith
  · simp only [h1, if_false]
    push_neg at h1
    by_cases h2 : 1/2 < q - n
    · simp only [h2, if_true]
      push_cast
      linarith
    · simp only [h2, if_false]
      by_cases h3 : n % 2 = 0
      · simp only [h3, if_true]
        linarith
      · simp only [h3, if_false]
        push_cast
        linarith

theorem sub_half_le_rhe (q : ℚ) : q - 1/2 ≤ (rhe q : ℚ) := by
  unfold rhe
  set n := ⌊q⌋ with hn
  have hfl : q < n + 1 := Int.lt_floor_add_one q
  by_cases h1 : q - n < 1/2
  · simp only [h1, if_true]
    linarith
  · simp only [h1, if_false]
    push_neg at h1
    by_cases h2 : 1/2 < q - n
    · simp only [h2, if_true]
      push_cast
      linarith
    · simp only [h2, if_false]
      by_cases h3 : n % 2 = 0
      · simp only [h3, if_true]
        linarith
      · simp only [h3, if_false]
        push_cast
        linarith

theorem round2_nonpos {q : ℚ} (h : q ≤ 0) : round2 q ≤ 0 := by
  unfold round2
  have hb : (rhe (100 * q) : ℚ) ≤ 100 * q + 1/2 := rhe_le_add_half _
  have h1 : (rhe (100 * q) : ℚ) < 1 := by linarith
  have h2 : rhe (100 * q) < 1 := by exact_mod_cast h1
  have h3 : rhe (100 * q) ≤ 0 := by omega
  have h4 : (rhe (100 * q) : ℚ) ≤ 0 := by exact_mod_cast h3
  linarith

theorem round2_nonneg {q : ℚ} (h : 0 ≤ q) : 0 ≤ round2 q := by
  unfold round2
  have hb : 100 * q - 1/2 ≤ (rhe (100 * q) : ℚ) := sub_half_le_rhe _
  have h1 : (-1 : ℚ) < (rhe (100 * q) : ℚ) := by linarith
  have h2 : (-1 : ℤ) < rhe (100 * q) := by exact_mod_cast h1
  have h3 : (0 : ℤ) ≤ rhe (100 * q) := by omega
  have h4 : (0 : ℚ) ≤ (rhe (100 * q) : ℚ) := by exact_mod_cast h3
  linarith

theorem round2_zero : round2 0 = 0 := by
  have h1 : round2 0 ≤ 0 := round2_nonpos le_rfl
  have h2 : 0 ≤ round2 0 := round2_nonneg le_rfl
  linarith

theorem allocate_steps_eq_map (cfg : AllocConfig) (stocks : List Stock) :
    allocate_steps cfg stocks = stocks.map (stageF cfg stocks) := by
  unfold allocate_steps stageF used5 stage5
  by_cases h : cfg.total_capital <
      capitalUsed (stocks.map (fun st =>
        step5 (cfg.total_capital * (cfg.capital_cap_percent / 100))
          (step4 (step3 cfg
            (step2 (cfg.total_capital * (cfg.basket_loss_percent / 100))
              (step1 ((stocks.map (·.confidence)).sum) stocks.length st))))))
  · simp only [List.map_map, Function.comp_def, h, if_true]
  · simp only [List.map_map, Function.comp_def, h, if_false]

theorem stageF_entry_price (cfg : AllocConfig) (stocks : List Stock)
    (st : Stock) : (stageF cfg stocks st).entry_price = st.entry_price := by
  unfold stageF stage5 step7 step6 step5 step4 step3 step2 step1
  split <;> rfl

theorem stageF_confidence (cfg : AllocConfig) (stocks : List Stock)
    (st : Stock) : (stageF cfg stocks st).confidence = st.confidence := by
  unfold stageF stage5 step7 step6 step5 step4 step3 step2 step1
  split <;> rfl

theorem stageF_bias (cfg : AllocConfig) (stocks : List Stock)
    (st : Stock) : (stageF cfg stocks st).bias = st.bias := by
  unfold stageF stage5 step7 step6 step5 step4 step3 step2 step1
  split <;> rfl

theorem stageF_symbol (cfg : AllocConfig) (stocks : List Stock)
    (st : Stock) : (stageF cfg stocks st).symbol = st.symbol := by
  unfold stageF stage5 step7 step6 step5 step4 step3 step2 step1
  split <;> rfl

theorem stageF_weight (cfg : AllocConfig) (stocks : List Stock) (st : Stock) :
    (stageF cfg stocks st).weight =
      some (if 0 < (stocks.map (·.confidence)).sum
        then st.confidence / (stocks.map (·.confidence)).sum
        else 1 / (stocks.length : ℚ)) := by
  unfold stageF stage5 step7 step6 step5 step4 step3 step2 step1
  split <;> rfl

theorem stageF_stop_loss (cfg : AllocConfig) (stocks : List Stock)
    (st : Stock) : (stageF cfg stocks st).stop_loss =
      some (allocStop cfg st.entry_price st.bias) := by
  unfold stageF stage5 step7 step6 step5 step4 step3 step2 step1
  split <;> rfl

theorem stageF_target (cfg : AllocConfig) (stocks : List Stock)
    (st : Stock) : (stageF cfg stocks st).target =
      some (allocTarget cfg st.entry_price st.bias) := by
  unfold stageF stage5 step7 step6 step5 step4 step3 step2 step1
  split <;> rfl

theorem stageF_quantity (cfg : AllocConfig) (stocks : List Stock)
    (st : Stock) : (stageF cfg stocks st).quantity = some (qF cfg stocks st) := by
  unfold stageF qF q5
  split <;> rfl

theorem stageF_capital_allocated (cfg : AllocConfig) (stocks : List Stock)
    (st : Stock) : (stageF cfg stocks st).capital_allocated =
      some ((qF cfg stocks st : ℚ) * st.entry_price) := by
  unfold stageF qF q5
  split
  · rfl
  · rfl

theorem q5_nonneg (cfg : AllocConfig) (stocks : List Stock) (st : Stock) :
    0 ≤ q5 cfg stocks st := by
  unfold q5 stage5 step5
  simp only [Option.getD_some]
  split
  · omega
  · split <;> omega

theorem qF_nonneg (cfg : AllocConfig) (stocks : List Stock) (st : Stock)
    (ht : 0 < cfg.total_capital) : 0 ≤ qF cfg stocks st := by
  unfold qF
  split
  · rename_i h
    have hq5 : (0 : ℚ) ≤ (q5 cfg stocks st : ℚ) := by
      exact_mod_cast q5_nonneg cfg stocks st
    have hu : 0 < used5 cfg stocks := lt_trans ht h
    have hsc : 0 ≤ cfg.total_capital / used5 cfg stocks :=
      le_of_lt (div_pos ht hu)
    have : (0 : ℚ) ≤ (q5 cfg stocks st : ℚ) * (cfg.total_capital / used5 cfg stocks) :=
      mul_nonneg hq5 hsc
    exact Int.le_floor.mpr (by simpa using this)
  · exact q5_nonneg cfg stocks st

theorem stage5_entry_price (cfg : AllocConfig) (stocks : List Stock)
    (st : Stock) : (stage5 cfg stocks st).entry_price = st.entry_price := rfl

theorem used5_eq (cfg : AllocConfig) (stocks : List Stock) :
    used5 cfg stocks =
      (stocks.map (fun st => (q5 cfg stocks st : ℚ) * st.entry_price)).sum := by
  unfold used5 capitalUsed
  rw [List.map_map]
  rfl

theorem mem_allocate_capital {cfg : AllocConfig} {stocks : List Stock}
    {st : Stock} (hmem : st ∈ allocate_capital cfg stocks) :
    ∃ o ∈ stocks, stageF cfg stocks o = st := by
  unfold allocate_capital at hmem
  by_cases he : stocks.isEmpty
  · rw [if_pos he] at hmem
    cases hmem
  · rw [if_neg he, allocate_steps_eq_map] at hmem
    exact List.mem_map.mp (List.mem_of_mem_filter hmem)

theorem stageF_opt_fields (cfg : AllocConfig) (stocks : List Stock)
    (st : Stock) :
    (stageF cfg stocks st).loss_cap.isSome ∧
    (stageF cfg stocks st).raw_quantity.isSome ∧
    (stageF cfg stocks st).max_loss.isSome ∧
    (stageF cfg stocks st).target_profit.isSome := by
  unfold stageF stage5 step7 step6 step5 step4 step3 step2 step1
  split <;> exact ⟨rfl, rfl, rfl, rfl⟩

/-! ### Claim theorems -/

/-- C1: for every non-empty candidate list with positive entry prices and
`total_capital > 0`, the stocks returned by `allocate_capital` have
`capital_allocated = quantity * entry_price` and those amounts sum to at
most `total_capital`, the step-6 rescale and the integer floors only ever
reducing the sum. -/
theorem C1_capital_feasibility (cfg : AllocConfig) (stocks : List Stock)
    (hne : stocks ≠ [])
    (hep : ∀ st ∈ stocks, 0 < st.entry_price)
    (ht : 0 < cfg.total_capital) :
    ((allocate_capital cfg stocks).map
        (fun st => st.capital_allocated.getD 0)).sum ≤ cfg.total_capital ∧
    ∀ st ∈ allocate_capital cfg stocks,
      st.capital_allocated = some ((st.quantity.getD 0 : ℚ) * st.entry_price) := by
  have hmap : allocate_capital cfg stocks =
      (stocks.map (stageF cfg stocks)).filter
        (fun st => 0 < st.quantity.getD 0) := by
    unfold allocate_capital
    rw [if_neg (by simpa using hne), allocate_steps_eq_map]
  constructor
  · -- all mapped amounts are nonnegative
    have hnn : ∀ a ∈ (stocks.map (stageF cfg stocks)).map
        (fun st => st.capital_allocated.getD 0), 0 ≤ a := by
      intro a ha
      rw [List.map_map] at ha
      obtain ⟨o, ho, rfl⟩ := List.mem_map.mp ha
      simp only [Function.comp_apply, stageF_capital_allocated, Option.getD_some]
      exact mul_nonneg
        (by exact_mod_cast qF_nonneg cfg stocks o ht)
        (le_of_lt (hep o ho))
    have hsub : (((stocks.map (stageF cfg stocks)).filter
          (fun st => 0 < st.quantity.getD 0)).map
            (fun st => st.capital_allocated.getD 0)).sum ≤
        ((stocks.map (stageF cfg stocks)).map
          (fun st => st.capital_allocated.getD 0)).sum :=
      List.Sublist.sum_le_sum
        (List.Sublist.map _ (List.filter_sublist _)) hnn
    have hfull : ((stocks.map (stageF cfg stocks)).map
        (fun st => st.capital_allocated.getD 0)).sum =
        (stocks.map (fun o => (qF cfg stocks o : ℚ) * o.entry_price)).sum := by
      rw [List.map_map]
      congr 1
      refine List.map_congr_left (fun o _ => ?_)
      simp [Function.comp_apply, stageF_capital_allocated, stageF_entry_price]
    by_cases hscale : cfg.total_capital < used5 cfg stocks
    · -- scaled branch: floors under the common factor keep the sum ≤ capital
      have hu : 0 < used5 cfg stocks := lt_trans ht hscale
      have hup : used5 cfg stocks ≠ 0 := ne_of_gt hu
      have hpt : ∀ o ∈ stocks,
          (qF cfg stocks o : ℚ) * o.entry_price ≤
            (cfg.total_capital / used5 cfg stocks) *
              ((q5 cfg stocks o : ℚ) * o.entry_price) := by
        intro o ho
        have hfl : (qF cfg stocks o : ℚ) ≤
            (q5 cfg stocks o : ℚ) * (cfg.total_capital / used5 cfg stocks) := by
          unfold qF
          rw [if_pos hscale]
          exact Int.floor_le _
        calc (qF cfg stocks o : ℚ) * o.entry_price
            ≤ ((q5 cfg stocks o : ℚ) *
                (cfg.total_capital / used5 cfg stocks)) * o.entry_price :=
              mul_le_mul_of_nonneg_right hfl (le_of_lt (hep o ho))
          _ = (cfg.total_capital / used5 cfg stocks) *
                ((q5 cfg stocks o : ℚ) * o.entry_price) := by ring
      have hsum : (stocks.map (fun o => (qF cfg stocks o : ℚ) * o.entry_price)).sum ≤
          (stocks.map (fun o => (cfg.total_capital / used5 cfg stocks) *
            ((q5 cfg stocks o : ℚ) * o.entry_price))).sum :=
        List.sum_le_sum hpt
      have hfac : (stocks.map (fun o => (cfg.total_capital / used5 cfg stocks) *
            ((q5 cfg stocks o : ℚ) * o.entry_price))).sum =
          (cfg.total_capital / used5 cfg stocks) *
            (stocks.map (fun o => (q5 cfg stocks o : ℚ) * o.entry_price)).sum :=
        List.sum_map_mul_left stocks
          (fun o => (q5 cfg stocks o : ℚ) * o.entry_price)
          (cfg.total_capital / used5 cfg stocks)
      have : (stocks.map (fun o => (qF cfg stocks o : ℚ) * o.entry_price)).sum ≤
          cfg.total_capital := by
        rw [hfac, ← used5_eq] at hsum
        calc (stocks.map (fun o => (qF cfg stocks o : ℚ) * o.entry_price)).sum
            ≤ (cfg.total_capital / used5 cfg stocks) * used5 cfg stocks := hsum
          _ = cfg.total_capital := div_mul_cancel₀ _ hup
      rw [hmap]
      calc _ ≤ _ := hsub
        _ = _ := hfull
        _ ≤ cfg.total_capital := this
    · -- unscaled branch: the sum is exactly `capital_used`, already feasible
      have hqe : ∀ o ∈ stocks, (qF cfg stocks o : ℚ) * o.entry_price =
          (q5 cfg stocks o : ℚ) * o.entry_price := by
        intro o _
        unfold qF
        rw [if_neg hscale]
      have : (stocks.map (fun o => (qF cfg stocks o : ℚ) * o.entry_price)).sum =
          used5 cfg stocks := by
        rw [used5_eq]
        congr 1
        exact List.map_congr_left hqe
      rw [hmap]
      calc _ ≤ _ := hsub
        _ = _ := hfull
        _ = used5 cfg stocks := this
        _ ≤ cfg.total_capital := not_lt.mp hscale
  · intro st hst
    obtain ⟨o, _, rfl⟩ := mem_allocate_capital hst
    rw [stageF_capital_allocated, stageF_quantity, stageF_entry_price,
      Option.getD_some]

/-- C1 witness: a concrete two-stock basket where the theorem's hypotheses
hold and the allocation stays within the 50000 budget. -/
theorem C1_capital_feasibility_witness :
    ((allocate_capital ⟨50000, 2, 4, 2, 2, 30⟩
        [{ symbol := "A", entry_price := 100, confidence := 90,
           bias := Bias.BULLISH },
         { symbol := "B", entry_price := 50, confidence := 60,
           bias := Bias.BEARISH }]).map
      (fun st => st.capital_allocated.getD 0)).sum ≤ (50000 : ℚ) :=
  (C1_capital_feasibility ⟨50000, 2, 4, 2, 2, 30⟩
    [{ symbol := "A", entry_price := 100, confidence := 90,
       bias := Bias.BULLISH },
     { symbol := "B", entry_price := 50, confidence := 60,
       bias := Bias.BEARISH }]
    (by decide) (by decide) (by norm_num)).1

/-- C5: with a positive confidence total `S`, every stock's weight is its
confidence divided by `S`, the weights over the whole basket sum to 1, and
equal confidences receive equal weights; with `S = 0` every stock receives
the equal weight `1/N`. -/
theorem C5_weight_normalization (cfg : AllocConfig) (stocks : List Stock)
    (_hne : stocks ≠ []) :
    (0 < (stocks.map (·.confidence)).sum →
      (∀ st ∈ allocate_steps cfg stocks,
        st.weight = some (st.confidence / (stocks.map (·.confidence)).sum)) ∧
      ((allocate_steps cfg stocks).map (fun st => st.weight.getD 0)).sum = 1 ∧
      (∀ st ∈ allocate_steps cfg stocks, ∀ su ∈ allocate_steps cfg stocks,
        st.confidence = su.confidence → st.weight = su.weight)) ∧
    ((stocks.map (·.confidence)).sum = 0 →
      ∀ st ∈ allocate_steps cfg stocks,
        st.weight = some (1 / (stocks.length : ℚ))) := by
  rw [allocate_steps_eq_map]
  constructor
  · intro hS
    refine ⟨?_, ?_, ?_⟩
    · intro st hst
      obtain ⟨o, _, rfl⟩ := List.mem_map.mp hst
      rw [stageF_weight, stageF_confidence, if_pos hS]
    · rw [List.map_map]
      have hcongr : stocks.map
          ((fun st => st.weight.getD 0) ∘ stageF cfg stocks) =
          stocks.map (fun o => o.confidence * (1 / (stocks.map (·.confidence)).sum)) := by
        refine List.map_congr_left (fun o _ => ?_)
        simp only [Function.comp_apply, stageF_weight, if_pos hS,
          Option.getD_some]
        rw [div_eq_mul_one_div]
      rw [hcongr, List.sum_map_mul_right, mul_one_div, div_self (ne_of_gt hS)]
    · intro st hst su hsu hconf
      obtain ⟨o, _, rfl⟩ := List.mem_map.mp hst
      obtain ⟨u, _, rfl⟩ := List.mem_map.mp hsu
      rw [stageF_confidence, stageF_confidence] at hconf
      rw [stageF_weight, stageF_weight, hconf]
  · intro hS st hst
    obtain ⟨o, _, rfl⟩ := List.mem_map.mp hst
    rw [stageF_weight, if_neg (by rw [hS]; exact lt_irrefl 0)]

/-- C5 witness: confidences 90/60/30 under a positive total confidence give
basket weights summing to 1. -/
theorem C5_weight_normalization_witness :
    ((allocate_steps ⟨50000, 2, 4, 2, 2, 30⟩
        [{ symbol := "A", entry_price := 100, confidence := 90,
           bias := Bias.BULLISH },
         { symbol := "B", entry_price := 50, confidence := 60,
           bias := Bias.BULLISH },
         { symbol := "C", entry_price := 200, confidence := 30,
           bias := Bias.BEARISH }]).map
      (fun st => st.weight.getD 0)).sum = 1 :=
  ((C5_weight_normalization ⟨50000, 2, 4, 2, 2, 30⟩
    [{ symbol := "A", entry_price := 100, confidence := 90,
       bias := Bias.BULLISH },
     { symbol := "B", entry_price := 50, confidence := 60,
       bias := Bias.BULLISH },
     { symbol := "C", entry_price := 200, confidence := 30,
       bias := Bias.BEARISH }]
    (by decide)).1 (by norm_num)).2.1

/-- C10: `allocate_capital` works in place on its input dicts: the mutated
list (steps 1-7) keeps the input's length, order and base fields, every one
of its entries — including those about to be dropped — carries all nine added
fields, and the returned list is exactly the zero-quantity filter of those
same mutated entries (not copies). -/
theorem C10_in_place_mutation (cfg : AllocConfig) (stocks : List Stock)
    (hne : stocks ≠ []) :
    (allocate_steps cfg stocks).length = stocks.length ∧
    (∀ i : ℕ,
      (allocate_steps cfg stocks)[i]?.map Stock.symbol =
          stocks[i]?.map Stock.symbol ∧
      (allocate_steps cfg stocks)[i]?.map Stock.entry_price =
          stocks[i]?.map Stock.entry_price ∧
      (allocate_steps cfg stocks)[i]?.map Stock.confidence =
          stocks[i]?.map Stock.confidence ∧
      (allocate_steps cfg stocks)[i]?.map Stock.bias =
          stocks[i]?.map Stock.bias) ∧
    (∀ st ∈ allocate_steps cfg stocks,
      st.weight.isSome ∧ st.loss_cap.isSome ∧ st.stop_loss.isSome ∧
      st.target.isSome ∧ st.raw_quantity.isSome ∧ st.quantity.isSome ∧
      st.capital_allocated.isSome ∧ st.max_loss.isSome ∧
      st.target_profit.isSome) ∧
    allocate_capital cfg stocks =
      (allocate_steps cfg stocks).filter (fun st => 0 < st.quantity.getD 0) := by
  refine ⟨?_, ?_, ?_, ?_⟩
  · rw [allocate_steps_eq_map, List.length_map]
  · intro i
    rw [allocate_steps_eq_map, List.getElem?_map]
    cases stocks[i]? with
    | none => exact ⟨rfl, rfl, rfl, rfl⟩
    | some o =>
      refine ⟨?_, ?_, ?_, ?_⟩ <;>
        simp [stageF_symbol, stageF_entry_price, stageF_confidence,
          stageF_bias]
  · intro st hst
    rw [allocate_steps_eq_map] at hst
    obtain ⟨o, _, rfl⟩ := List.mem_map.mp hst
    obtain ⟨h1, h2, h3, h4⟩ := stageF_opt_fields cfg stocks o
    refine ⟨?_, h1, ?_, ?_, h2, ?_, ?_, h3, h4⟩
    · rw [stageF_weight]; rfl
    · rw [stageF_stop_loss]; rfl
    · rw [stageF_target]; rfl
    · rw [stageF_quantity]; rfl
    · rw [stageF_capital_allocated]; rfl
  · unfold allocate_capital
    rw [if_neg (by simpa using hne)]

/-- C10 witness: on a concrete two-stock input the mutated list keeps the
input length. -/
theorem C10_in_place_mutation_witness :
    (allocate_steps ⟨50000, 2, 4, 2, 2, 30⟩
      [{ symbol := "A", entry_price := 100, confidence := 90,
         bias := Bias.BULLISH },
       { symbol := "B", entry_price := 50, confidence := 60,
         bias := Bias.BEARISH }]).length = 2 :=
  (C10_in_place_mutation ⟨50000, 2, 4, 2, 2, 30⟩
    [{ symbol := "A", entry_price := 100, confidence := 90,
       bias := Bias.BULLISH },
     { symbol := "B", entry_price := 50, confidence := 60,
       bias := Bias.BEARISH }]
    (by decide)).1

/-- C6 counterexample: a configuration the claim admits (stop_loss_percent
= 2 ∈ (0,100), risk_reward_ratio > 0) but with target_percent = 0 makes
`calculate_entry` return target = entry_price, refuting
entry_price < target. -/
theorem C6_counterexample :
    ((calculate_entry ⟨100000, 10000, 2, 0, 0, 0, 0, 900⟩ "X"
        [{ Time := 10, Open := 100, High := 101, Low := 99, Close := 100 }]
        Bias.BULLISH).map
      (fun ed => (ed.entry_price, ed.target,
        decide (ed.entry_price < ed.target)))) = some (100, 100, false) ∧
    (0 : ℚ) < 2 ∧ (2 : ℚ) < 100 := by
  constructor
  · norm_num [calculate_entry, entryPriceRaw, stopRaw, targetRaw, pytrunc,
      round2, rhe, List.find?]
  · norm_num

/-- C6 corrected: under 0 < stop_loss_percent < 100 and risk_reward_ratio
> 0 the Allocator's levels satisfy stop < entry < target (BULLISH) and
target < entry < stop (BEARISH); `calculate_entry`'s derivation satisfies
the same for its pre-rounding levels provided additionally target_percent
> 0 (the stored fields are these values rounded to 2 decimals, which can
coincide at sub-cent price scales). -/
theorem C6_stop_target_monotonic (cfgA : AllocConfig) (cfgE : EngineConfig)
    (stocks : List Stock)
    (hsl : 0 < cfgA.stop_loss_percent) (_hsl2 : cfgA.stop_loss_percent < 100)
    (hrr : 0 < cfgA.risk_reward)
    (hep : ∀ st ∈ stocks, 0 < st.entry_price)
    (hEsl : 0 < cfgE.stop_loss_percent) (_hEsl2 : cfgE.stop_loss_percent < 100)
    (hEtp : 0 < cfgE.target_percent) :
    (∀ st ∈ allocate_capital cfgA stocks,
      (st.bias = Bias.BULLISH →
        st.stop_loss.getD 0 < st.entry_price ∧
        st.entry_price < st.target.getD 0) ∧
      (st.bias = Bias.BEARISH →
        st.target.getD 0 < st.entry_price ∧
        st.entry_price < st.stop_loss.getD 0)) ∧
    (∀ ep : ℚ, 0 < ep → ∀ bias : Bias,
      (bias = Bias.BULLISH →
        stopRaw cfgE ep bias < ep ∧ ep < targetRaw cfgE ep bias) ∧
      (bias = Bias.BEARISH →
        targetRaw cfgE ep bias < ep ∧ ep < stopRaw cfgE ep bias)) := by
  have hs100 : 0 < cfgA.stop_loss_percent / 100 := by positivity
  have hEs100 : 0 < cfgE.stop_loss_percent / 100 := by positivity
  have hEt100 : 0 < cfgE.target_percent / 100 := by positivity
  constructor
  · intro st hst
    obtain ⟨o, ho, rfl⟩ := mem_allocate_capital hst
    have he : 0 < o.entry_price := hep o ho
    rw [stageF_stop_loss, stageF_target, stageF_entry_price, stageF_bias]
    have hP : 0 < o.entry_price * (cfgA.stop_loss_percent / 100) :=
      mul_pos he hs100
    constructor
    · intro hb
      rw [hb]
      unfold allocTarget allocStop
      simp only [Option.getD_some]
      constructor
      · nlinarith
      · nlinarith [mul_pos hP hrr]
    · intro hb
      rw [hb]
      unfold allocTarget allocStop
      simp only [Option.getD_some]
      constructor
      · nlinarith [mul_pos hP hrr]
      · nlinarith
  · intro ep hp bias
    have hPs : 0 < ep * (cfgE.stop_loss_percent / 100) := mul_pos hp hEs100
    have hPt : 0 < ep * (cfgE.target_percent / 100) := mul_pos hp hEt100
    constructor
    · intro hb
      rw [hb]
      unfold stopRaw targetRaw
      simp only
      constructor
      · nlinarith
      · nlinarith
    · intro hb
      rw [hb]
      unfold stopRaw targetRaw
      simp only
      constructor
      · nlinarith
      · nlinarith

/-- C6 witness: at entry price 100 with stop_loss_percent 2 and
target_percent 4 the engine's derived levels bracket the entry. -/
theorem C6_stop_target_monotonic_witness :
    stopRaw ⟨100000, 10000, 2, 4, 0, 0, 0, 900⟩ 100 Bias.BULLISH < 100 ∧
    (100 : ℚ) < targetRaw ⟨100000, 10000, 2, 4, 0, 0, 0, 900⟩ 100 Bias.BULLISH :=
  ((C6_stop_target_monotonic ⟨50000, 2, 4, 2, 2, 30⟩
      ⟨100000, 10000, 2, 4, 0, 0, 0, 900⟩ []
      (by norm_num) (by norm_num) (by norm_num)
      (by intro st hst; cases hst)
      (by norm_num) (by norm_num) (by norm_num)).2
    100 (by norm_num) Bias.BULLISH).1 rfl

theorem count_pos_add_count_neg (trades : List Trade)
    (h : ∀ t ∈ trades, t.net_pnl ≠ 0) :
    (trades.filter (fun t => 0 < t.net_pnl)).length +
      (trades.filter (fun t => t.net_pnl < 0)).length = trades.length := by
  induction trades with
  | nil => rfl
  | cons t ts ih =>
    have ht : t.net_pnl ≠ 0 := h t (List.mem_cons_self t ts)
    have hts : ∀ u ∈ ts, u.net_pnl ≠ 0 :=
      fun u hu => h u (List.mem_cons_of_mem t hu)
    have ih2 := ih hts
    rcases lt_trichotomy t.net_pnl 0 with hlt | heq | hgt
    · simp only [List.filter_cons]
      rw [if_neg (by simpa using not_lt_of_gt hlt), if_pos (by simpa using hlt)]
      simp only [List.length_cons]
      omega
    · exact absurd heq ht
    · simp only [List.filter_cons]
      rw [if_pos (by simpa using hgt), if_neg (by simpa using not_lt_of_gt hgt)]
      simp only [List.length_cons]
      omega

/-- C9: `signal_strength` is always the non-negative clip of `expectancy`,
and the empty trade list returns a result whose aggregate fields are all 0
instead of an error. -/
theorem C9_expectancy_degenerate :
    (∀ trades : List Trade,
      (calculate_expectancy trades).signal_strength =
        max 0 (calculate_expectancy trades).expectancy) ∧
    (calculate_expectancy []).win_rate = 0 ∧
    (calculate_expectancy []).avg_win = 0 ∧
    (calculate_expectancy []).avg_loss = 0 ∧
    (calculate_expectancy []).expectancy = 0 ∧
    (calculate_expectancy []).signal_strength = 0 ∧
    (calculate_expectancy []).total_trades = 0 := by
  refine ⟨?_, rfl, rfl, rfl, rfl, rfl, rfl⟩
  intro trades
  unfold calculate_expectancy
  split
  · simp
  · rfl

/-- C3 counterexample: on the trades [10, 0, −10] (one breakeven trade) the
code's expectancy is 0, not win_rate·avg_win − (1−win_rate)·avg_loss =
1/3·10 − 2/3·10 = −10/3, and the returned `win_rate` field is the
percentage 100/3, not the fraction 1/3. -/
theorem C3_counterexample :
    (calculate_expectancy [⟨10⟩, ⟨0⟩, ⟨-10⟩]).avg_win = 10 ∧
    (calculate_expectancy [⟨10⟩, ⟨0⟩, ⟨-10⟩]).avg_loss = 10 ∧
    (calculate_expectancy [⟨10⟩, ⟨0⟩, ⟨-10⟩]).expectancy = 0 ∧
    (calculate_expectancy [⟨10⟩, ⟨0⟩, ⟨-10⟩]).expectancy ≠
      (1/3 : ℚ) * (calculate_expectancy [⟨10⟩, ⟨0⟩, ⟨-10⟩]).avg_win -
        (1 - 1/3) * (calculate_expectancy [⟨10⟩, ⟨0⟩, ⟨-10⟩]).avg_loss ∧
    (calculate_expectancy [⟨10⟩, ⟨0⟩, ⟨-10⟩]).win_rate ≠ (1/3 : ℚ) := by
  norm_num [calculate_expectancy, List.filter]

/-- C3 corrected: for non-empty trades the result satisfies
win_rate = 100·(wins/total) (a percentage, not a fraction),
avg_win = mean of positive net_pnl, avg_loss = |mean of negative net_pnl|,
and expectancy = (wins/total)·avg_win − (losses/total)·avg_loss, where
losses/total equals 1 − wins/total only when no trade is breakeven. -/
theorem C3_expectancy_formula (trades : List Trade) (hne : trades ≠ []) :
    (calculate_expectancy trades).win_rate =
      100 * (((trades.filter (fun t => 0 < t.net_pnl)).length : ℚ) /
        (trades.length : ℚ)) ∧
    (calculate_expectancy trades).avg_win =
      (if (trades.filter (fun t => 0 < t.net_pnl)).length = 0 then 0
       else ((trades.filter (fun t => 0 < t.net_pnl)).map (·.net_pnl)).sum /
         ((trades.filter (fun t => 0 < t.net_pnl)).length : ℚ)) ∧
    (calculate_expectancy trades).avg_loss =
      (if (trades.filter (fun t => t.net_pnl < 0)).length = 0 then 0
       else |((trades.filter (fun t => t.net_pnl < 0)).map (·.net_pnl)).sum /
         ((trades.filter (fun t => t.net_pnl < 0)).length : ℚ)|) ∧
    (calculate_expectancy trades).expectancy =
      (((trades.filter (fun t => 0 < t.net_pnl)).length : ℚ) /
          (trades.length : ℚ)) * (calculate_expectancy trades).avg_win -
        (((trades.filter (fun t => t.net_pnl < 0)).length : ℚ) /
          (trades.length : ℚ)) * (calculate_expectancy trades).avg_loss ∧
    ((∀ t ∈ trades, t.net_pnl ≠ 0) →
      (calculate_expectancy trades).expectancy =
        (((trades.filter (fun t => 0 < t.net_pnl)).length : ℚ) /
            (trades.length : ℚ)) * (calculate_expectancy trades).avg_win -
          (1 - ((trades.filter (fun t => 0 < t.net_pnl)).length : ℚ) /
            (trades.length : ℚ)) * (calculate_expectancy trades).avg_loss) := by
  have hemp : trades.isEmpty = false := by simpa using hne
  have hlen : (trades.length : ℚ) ≠ 0 := by
    have h0 : trades.length ≠ 0 := fun h => hne (List.length_eq_zero.mp h)
    exact_mod_cast h0
  unfold calculate_expectancy
  rw [if_neg (by simp [hemp])]
  refine ⟨?_, ?_, ?_, ?_, ?_⟩
  · simp only [List.length_map]
    ring
  · simp only [List.length_map]
    by_cases hw : (trades.filter (fun t => 0 < t.net_pnl)).length = 0
    · rw [if_pos, if_pos hw]
      simpa [List.isEmpty_iff, List.length_eq_zero] using hw
    · rw [if_neg, if_neg hw]
      simpa [List.isEmpty_iff, List.length_eq_zero] using hw
  · simp only [List.length_map]
    by_cases hw : (trades.filter (fun t => t.net_pnl < 0)).length = 0
    · rw [if_pos, if_pos hw]
      simpa [List.isEmpty_iff, List.length_eq_zero] using hw
    · rw [if_neg, if_neg hw]
      simpa [List.isEmpty_iff, List.length_eq_zero] using hw
  · simp only [List.length_map]
  · intro hnz
    have hcount := count_pos_add_count_neg trades hnz
    have hcast : ((trades.filter (fun t => 0 < t.net_pnl)).length : ℚ) +
        ((trades.filter (fun t => t.net_pnl < 0)).length : ℚ) =
        (trades.length : ℚ) := by exact_mod_cast hcount
    have hrate : ((trades.filter (fun t => t.net_pnl < 0)).length : ℚ) /
        (trades.length : ℚ) =
        1 - ((trades.filter (fun t => 0 < t.net_pnl)).length : ℚ) /
          (trades.length : ℚ) := by
      field_simp
      linarith
    rw [← hrate]
    simp only [List.length_map]

/-- C3 witness for the corrected formula: the all-decisive trade set
[10, −10] has expectancy 1/2·10 − (1 − 1/2)·10 = 0. -/
theorem C3_expectancy_formula_witness :
    (calculate_expectancy [⟨10⟩, ⟨-10⟩]).win_rate =
      100 * ((([⟨10⟩, ⟨-10⟩] : List Trade).filter
        (fun t => 0 < t.net_pnl)).length : ℚ) / 2 :=
  by simpa using
    (C3_expectancy_formula [⟨10⟩, ⟨-10⟩] (by decide)).1

theorem scanExit_append_no_trigger (cfg : EngineConfig) (bias : Bias)
    (stop tgt : ℚ) (pre rest : List Candle)
    (hpre : ∀ p ∈ pre, p.Time < cfg.force_exit_time ∧
      hitsStop bias stop p = false ∧ hitsTarget bias tgt p = false) :
    scanExit cfg bias stop tgt (pre ++ rest) =
      scanExit cfg bias stop tgt rest := by
  induction pre with
  | nil => rfl
  | cons c cs ih =>
    obtain ⟨h1, h2, h3⟩ := hpre c (List.mem_cons_self c cs)
    rw [List.cons_append]
    unfold scanExit
    rw [if_neg (not_le_of_lt h1), h2, h3]
    simp only [Bool.false_eq_true, if_false]
    rw [ih (fun p hp => hpre p (List.mem_cons_of_mem c hp))]
    cases rest with
    | nil => rfl
    | cons d ds => rfl

theorem scanExit_eq_none (cfg : EngineConfig) (bias : Bias) (stop tgt : ℚ)
    (l : List Candle)
    (h : ∀ p ∈ l, p.Time < cfg.force_exit_time ∧
      hitsStop bias stop p = false ∧ hitsTarget bias tgt p = false) :
    scanExit cfg bias stop tgt l = none := by
  have := scanExit_append_no_trigger cfg bias stop tgt l [] h
  simpa using this

/-- C2: if the forward scan of `simulate_trade` reaches, strictly before
`force_exit_time`, a candle that crosses both the stop and the target, the
trade exits at the stop-loss price with reason STOP_LOSS, never TARGET. -/
theorem C2_stop_before_target (cfg : EngineConfig) (ed : EntryDetails)
    (candles pre post : List Candle) (c : Candle) (k : ℕ) (date : String)
    (hidx : candles.findIdx? (fun cd => cd.Time = ed.entry_time) = some k)
    (hsplit : candles.drop (k + 1) = pre ++ c :: post)
    (hpre : ∀ p ∈ pre, p.Time < cfg.force_exit_time ∧
      hitsStop ed.bias ed.stop_loss p = false ∧
      hitsTarget ed.bias ed.target p = false)
    (hctime : c.Time < cfg.force_exit_time)
    (hcstop : hitsStop ed.bias ed.stop_loss c = true)
    (_hctgt : hitsTarget ed.bias ed.target c = true) :
    ∃ rec, simulate_trade cfg ed candles date = some rec ∧
      rec.exit_reason = ExitReason.STOP_LOSS ∧
      rec.exit_time = c.Time ∧
      rec.exit_price = round2 (exitAdjust cfg ed.bias ed.stop_loss) := by
  have hscan : scanExit cfg ed.bias ed.stop_loss ed.target
      (candles.drop (k + 1)) =
      some (ed.stop_loss, c.Time, ExitReason.STOP_LOSS) := by
    rw [hsplit, scanExit_append_no_trigger cfg ed.bias ed.stop_loss ed.target
      pre (c :: post) hpre]
    unfold scanExit
    rw [if_neg (not_le_of_lt hctime), hcstop]
    simp
  refine ⟨mkRecord cfg ed date (ed.stop_loss, c.Time, ExitReason.STOP_LOSS),
    ?_, rfl, rfl, rfl⟩
  unfold simulate_trade
  rw [hidx]
  simp only [hscan]

/-- C2 witness: a concrete BULLISH trade whose first scanned candle spans
both the stop (98) and the target (104) exits with STOP_LOSS. -/
theorem C2_stop_before_target_witness :
    ∃ rec, simulate_trade ⟨100000, 10000, 2, 4, 0, 0, 555, 900⟩
      { symbol := "X", entry_time := 1, entry_price := 100, quantity := 10,
        bias := Bias.BULLISH, stop_loss := 98, target := 104,
        invested_amount := 1000 }
      [{ Time := 1, Open := 100, High := 100, Low := 100, Close := 100 },
       { Time := 2, Open := 100, High := 105, Low := 97, Close := 101 }]
      "d" = some rec ∧
      rec.exit_reason = ExitReason.STOP_LOSS ∧
      rec.exit_time = 2 ∧
      rec.exit_price = round2 (exitAdjust ⟨100000, 10000, 2, 4, 0, 0, 555, 900⟩
        Bias.BULLISH 98) :=
  C2_stop_before_target ⟨100000, 10000, 2, 4, 0, 0, 555, 900⟩
    { symbol := "X", entry_time := 1, entry_price := 100, quantity := 10,
      bias := Bias.BULLISH, stop_loss := 98, target := 104,
      invested_amount := 1000 }
    [{ Time := 1, Open := 100, High := 100, Low := 100, Close := 100 },
     { Time := 2, Open := 100, High := 105, Low := 97, Close := 101 }]
    [] []
    { Time := 2, Open := 100, High := 105, Low := 97, Close := 101 } 0 "d"
    (by norm_num [List.findIdx?]) (by norm_num)
    (by intro p hp; cases hp)
    (by norm_num) (by norm_num [hitsStop]) (by norm_num [hitsTarget])

/-- C7: when the scan after the entry candle exhausts the series — no candle
reaches `force_exit_time` and none triggers the stop or the target,
including the case of no candles after the entry at all — `simulate_trade`
force-exits at the close of the last candle of the series with reason
FORCE_EXIT_EOD. -/
theorem C7_force_exit_exhaustion (cfg : EngineConfig) (ed : EntryDetails)
    (candles : List Candle) (k : ℕ) (date : String)
    (hidx : candles.findIdx? (fun cd => cd.Time = ed.entry_time) = some k)
    (hall : ∀ p ∈ candles.drop (k + 1), p.Time < cfg.force_exit_time ∧
      hitsStop ed.bias ed.stop_loss p = false ∧
      hitsTarget ed.bias ed.target p = false) :
    ∃ rec, simulate_trade cfg ed candles date = some rec ∧
      rec.exit_reason = ExitReason.FORCE_EXIT_EOD ∧
      rec.exit_time = (candles.getLastD dummyCandle).Time ∧
      rec.exit_price =
        round2 (exitAdjust cfg ed.bias (candles.getLastD dummyCandle).Close) := by
  have hscan : scanExit cfg ed.bias ed.stop_loss ed.target
      (candles.drop (k + 1)) = none :=
    scanExit_eq_none cfg ed.bias ed.stop_loss ed.target _ hall
  refine ⟨mkRecord cfg ed date ((candles.getLastD dummyCandle).Close,
    (candles.getLastD dummyCandle).Time, ExitReason.FORCE_EXIT_EOD),
    ?_, rfl, rfl, rfl⟩
  unfold simulate_trade
  rw [hidx]
  simp only [hscan]

/-- C7 witness: a series whose only candle after entry stays inside the
stop/target band and below `force_exit_time`; the trade closes at that
last candle's close with FORCE_EXIT_EOD. -/
theorem C7_force_exit_exhaustion_witness :
    ∃ rec, simulate_trade ⟨100000, 10000, 2, 4, 0, 0, 555, 900⟩
      { symbol := "X", entry_time := 1, entry_price := 100, quantity := 10,
        bias := Bias.BULLISH, stop_loss := 98, target := 104,
        invested_amount := 1000 }
      [{ Time := 1, Open := 100, High := 100, Low := 100, Close := 100 },
       { Time := 2, Open := 100, High := 101, Low := 99, Close := 100 }]
      "d" = some rec ∧
      rec.exit_reason = ExitReason.FORCE_EXIT_EOD ∧
      rec.exit_time = 2 ∧
      rec.exit_price = round2 (exitAdjust ⟨100000, 10000, 2, 4, 0, 0, 555, 900⟩
        Bias.BULLISH 100) := by
  have h := C7_force_exit_exhaustion ⟨100000, 10000, 2, 4, 0, 0, 555, 900⟩
    { symbol := "X", entry_time := 1, entry_price := 100, quantity := 10,
      bias := Bias.BULLISH, stop_loss := 98, target := 104,
      invested_amount := 1000 }
    [{ Time := 1, Open := 100, High := 100, Low := 100, Close := 100 },
     { Time := 2, Open := 100, High := 101, Low := 99, Close := 100 }]
    0 "d"
    (by norm_num [List.findIdx?])
    (by
      intro p hp
      simp only [List.drop, List.mem_singleton] at hp
      subst hp
      refine ⟨by norm_num, by norm_num [hitsStop], by norm_num [hitsTarget]⟩)
  simpa using h

theorem simulate_trade_eq_mkRecord {cfg : EngineConfig} {ed : EntryDetails}
    {candles : List Candle} {date : String} {rec : TradeRecord}
    (h : simulate_trade cfg ed candles date = some rec) :
    ∃ rawExit, rec = mkRecord cfg ed date rawExit := by
  unfold simulate_trade at h
  cases hidx : candles.findIdx? (fun c => c.Time = ed.entry_time) with
  | none =>
    rw [hidx] at h
    cases h
  | some k =>
    rw [hidx] at h
    simp only at h
    exact ⟨_, (Option.some_inj.mp h).symm⟩

theorem mkRecord_outcome_consistency (cfg : EngineConfig) (ed : EntryDetails)
    (date : String) (rawExit : ℚ × ℕ × ExitReason) :
    (0 < (mkRecord cfg ed date rawExit).net_pnl →
      (mkRecord cfg ed date rawExit).profit_or_loss = Outcome.PROFIT) ∧
    ((mkRecord cfg ed date rawExit).net_pnl < 0 →
      (mkRecord cfg ed date rawExit).profit_or_loss = Outcome.LOSS) ∧
    ((mkRecord cfg ed date rawExit).profit_or_loss = Outcome.PROFIT →
      0 ≤ (mkRecord cfg ed date rawExit).net_pnl) ∧
    ((mkRecord cfg ed date rawExit).profit_or_loss = Outcome.LOSS →
      (mkRecord cfg ed date rawExit).net_pnl ≤ 0) ∧
    ((mkRecord cfg ed date rawExit).profit_or_loss = Outcome.BREAKEVEN →
      (mkRecord cfg ed date rawExit).net_pnl = 0) := by
  unfold mkRecord
  simp only
  set net := grossPnl ed.bias ed.entry_price
      (exitAdjust cfg ed.bias rawExit.1) ed.quantity -
    ed.invested_amount * 2 * (cfg.transaction_cost_percent / 100) with hnet
  rcases lt_trichotomy net 0 with hlt | heq | hgt
  · rw [if_neg (by linarith), if_pos hlt]
    refine ⟨?_, fun _ => rfl, ?_, fun _ => round2_nonpos (le_of_lt hlt), ?_⟩
    · intro hpos
      exact absurd (round2_nonpos (le_of_lt hlt)) (not_le_of_lt hpos)
    · intro h
      cases h
    · intro h
      cases h
  · rw [if_neg (by linarith), if_neg (by linarith)]
    refine ⟨?_, ?_, ?_, ?_, fun _ => ?_⟩
    · intro hpos
      rw [heq, round2_zero] at hpos
      exact absurd hpos (lt_irrefl 0)
    · intro hneg
      rw [heq, round2_zero] at hneg
      exact absurd hneg (lt_irrefl 0)
    · intro h
      cases h
    · intro h
      cases h
    · rw [heq, round2_zero]
  · rw [if_pos hgt]
    refine ⟨fun _ => rfl, ?_, fun _ => round2_nonneg (le_of_lt hgt), ?_, ?_⟩
    · intro hneg
      exact absurd (round2_nonneg (le_of_lt hgt)) (not_le_of_lt hneg)
    · intro h
      cases h
    · intro h
      cases h

/-- C4 counterexample: a trade with unrounded net P&L 0.001 is labelled
PROFIT while its recorded `net_pnl` field rounds to 0, so the label is not
equivalent to `net_pnl > 0` on the record. -/
theorem C4_counterexample :
    ((simulate_trade ⟨100000, 10000, 2, 4, 0, 0, 555, 900⟩
        { symbol := "X", entry_time := 1, entry_price := 100, quantity := 1,
          bias := Bias.BULLISH, stop_loss := 90, target := 200,
          invested_amount := 100 }
        [{ Time := 1, Open := 100, High := 100, Low := 100, Close := 100 },
         { Time := 901, Open := 100, High := 100, Low := 100,
           Close := 100 + 1/1000 }] "d").map
      (fun r => (r.profit_or_loss, r.net_pnl))) =
      some (Outcome.PROFIT, 0) := by
  norm_num [simulate_trade, List.findIdx?, scanExit, mkRecord, exitAdjust,
    grossPnl, round2, rhe]

/-- C4 corrected: the outcome label is computed from the unrounded net P&L,
while the stored `net_pnl` is rounded to 2 decimals; hence on every record
produced by `simulate_trade`: `net_pnl > 0` implies PROFIT, `net_pnl < 0`
implies LOSS, PROFIT implies `net_pnl ≥ 0`, LOSS implies `net_pnl ≤ 0`, and
BREAKEVEN implies `net_pnl = 0` — but a record whose stored `net_pnl` is 0
may be labelled PROFIT or LOSS when the unrounded value is a sub-cent
amount. -/
theorem C4_outcome_netpnl (cfg : EngineConfig) (ed : EntryDetails)
    (candles : List Candle) (date : String) (rec : TradeRecord)
    (h : simulate_trade cfg ed candles date = some rec) :
    (0 < rec.net_pnl → rec.profit_or_loss = Outcome.PROFIT) ∧
    (rec.net_pnl < 0 → rec.profit_or_loss = Outcome.LOSS) ∧
    (rec.profit_or_loss = Outcome.PROFIT → 0 ≤ rec.net_pnl) ∧
    (rec.profit_or_loss = Outcome.LOSS → rec.net_pnl ≤ 0) ∧
    (rec.profit_or_loss = Outcome.BREAKEVEN → rec.net_pnl = 0) := by
  obtain ⟨rawExit, rfl⟩ := simulate_trade_eq_mkRecord h
  exact mkRecord_outcome_consistency cfg ed date rawExit

/-- C4 witness: the consistency implications instantiated on a concrete
stop-loss trade actually produced by `simulate_trade`. -/
theorem C4_outcome_netpnl_witness :
    (0 < (mkRecord ⟨100000, 10000, 2, 4, 0, 0, 555, 900⟩
        { symbol := "X", entry_time := 1, entry_price := 100, quantity := 10,
          bias := Bias.BULLISH, stop_loss := 98, target := 104,
          invested_amount := 1000 } "d"
        (98, 2, ExitReason.STOP_LOSS)).net_pnl →
      (mkRecord ⟨100000, 10000, 2, 4, 0, 0, 555, 900⟩
        { symbol := "X", entry_time := 1, entry_price := 100, quantity := 10,
          bias := Bias.BULLISH, stop_loss := 98, target := 104,
          invested_amount := 1000 } "d"
        (98, 2, ExitReason.STOP_LOSS)).profit_or_loss = Outcome.PROFIT) ∧
    ((mkRecord ⟨100000, 10000, 2, 4, 0, 0, 555, 900⟩
        { symbol := "X", entry_time := 1, entry_price := 100, quantity := 10,
          bias := Bias.BULLISH, stop_loss := 98, target := 104,
          invested_amount := 1000 } "d"
        (98, 2, ExitReason.STOP_LOSS)).net_pnl < 0 →
      (mkRecord ⟨100000, 10000, 2, 4, 0, 0, 555, 900⟩
        { symbol := "X", entry_time := 1, entry_price := 100, quantity := 10,
          bias := Bias.BULLISH, stop_loss := 98, target := 104,
          invested_amount := 1000 } "d"
        (98, 2, ExitReason.STOP_LOSS)).profit_or_loss = Outcome.LOSS) ∧
    ((mkRecord ⟨100000, 10000, 2, 4, 0, 0, 555, 900⟩
        { symbol := "X", entry_time := 1, entry_price := 100, quantity := 10,
          bias := Bias.BULLISH, stop_loss := 98, target := 104,
          invested_amount := 1000 } "d"
        (98, 2, ExitReason.STOP_LOSS)).profit_or_loss = Outcome.PROFIT →
      0 ≤ (mkRecord ⟨100000, 10000, 2, 4, 0, 0, 555, 900⟩
        { symbol := "X", entry_time := 1, entry_price := 100, quantity := 10,
          bias := Bias.BULLISH, stop_loss := 98, target := 104,
          invested_amount := 1000 } "d"
        (98, 2, ExitReason.STOP_LOSS)).net_pnl) ∧
    ((mkRecord ⟨100000, 10000, 2, 4, 0, 0, 555, 900⟩
        { symbol := "X", entry_time := 1, entry_price := 100, quantity := 10,
          bias := Bias.BULLISH, stop_loss := 98, target := 104,
          invested_amount := 1000 } "d"
        (98, 2, ExitReason.STOP_LOSS)).profit_or_loss = Outcome.LOSS →
      (mkRecord ⟨100000, 10000, 2, 4, 0, 0, 555, 900⟩
        { symbol := "X", entry_time := 1, entry_price := 100, quantity := 10,
          bias := Bias.BULLISH, stop_loss := 98, target := 104,
          invested_amount := 1000 } "d"
        (98, 2, ExitReason.STOP_LOSS)).net_pnl ≤ 0) ∧
    ((mkRecord ⟨100000, 10000, 2, 4, 0, 0, 555, 900⟩
        { symbol := "X", entry_time := 1, entry_price := 100, quantity := 10,
          bias := Bias.BULLISH, stop_loss := 98, target := 104,
          invested_amount := 1000 } "d"
        (98, 2, ExitReason.STOP_LOSS)).profit_or_loss = Outcome.BREAKEVEN →
      (mkRecord ⟨100000, 10000, 2, 4, 0, 0, 555, 900⟩
        { symbol := "X", entry_time := 1, entry_price := 100, quantity := 10,
          bias := Bias.BULLISH, stop_loss := 98, target := 104,
          invested_amount := 1000 } "d"
        (98, 2, ExitReason.STOP_LOSS)).net_pnl = 0) :=
  C4_outcome_netpnl ⟨100000, 10000, 2, 4, 0, 0, 555, 900⟩
    { symbol := "X", entry_time := 1, entry_price := 100, quantity := 10,
      bias := Bias.BULLISH, stop_loss := 98, target := 104,
      invested_amount := 1000 }
    [{ Time := 1, Open := 100, High := 100, Low := 100, Close := 100 },
     { Time := 2, Open := 100, High := 105, Low := 97, Close := 101 }]
    "d" _
    (by norm_num [simulate_trade, List.findIdx?, scanExit, hitsStop])

theorem entryPriceRaw_pos (cfg : EngineConfig) (base : ℚ) (bias : Bias)
    (hb : 0 < base) (hs0 : 0 ≤ cfg.slippage_percent)
    (hs1 : cfg.slippage_percent < 100) : 0 < entryPriceRaw cfg base bias := by
  unfold entryPriceRaw
  cases bias with
  | BULLISH => nlinarith
  | BEARISH => nlinarith

theorem pytrunc_eq_floor {q : ℚ} (h : 0 ≤ q) : pytrunc q = ⌊q⌋ := by
  unfold pytrunc
  rw [if_pos h]

/-- C8: `calculate_entry` (a total function — no exception path) returns no
result exactly when no candle's time reaches `entry_start` or the floored
quantity `⌊capital_per_trade / adjusted price⌋` is 0; otherwise the entry it
returns is priced at the first such candle's open moved against the trader
by slippage (BULLISH up, BEARISH down). -/
theorem C8_entry_absence (cfg : EngineConfig) (symbol : String)
    (candles : List Candle) (bias : Bias)
    (hopen : ∀ c ∈ candles, 0 < c.Open)
    (hcap : 0 ≤ cfg.capital_per_trade)
    (hs0 : 0 ≤ cfg.slippage_percent) (hs1 : cfg.slippage_percent < 100) :
    (calculate_entry cfg symbol candles bias = none ↔
      (candles.find? (fun c => cfg.entry_start ≤ c.Time) = none ∨
       ∃ ec, candles.find? (fun c => cfg.entry_start ≤ c.Time) = some ec ∧
         ⌊cfg.capital_per_trade / entryPriceRaw cfg ec.Open bias⌋ = 0)) ∧
    (∀ ec ed, candles.find? (fun c => cfg.entry_start ≤ c.Time) = some ec →
      calculate_entry cfg symbol candles bias = some ed →
      ed.entry_price = round2 (entryPriceRaw cfg ec.Open bias) ∧
      ed.entry_time = ec.Time ∧
      ed.quantity = ⌊cfg.capital_per_trade / entryPriceRaw cfg ec.Open bias⌋ ∧
      ed.bias = bias) := by
  cases hfind : candles.find? (fun c => cfg.entry_start ≤ c.Time) with
  | none =>
    constructor
    · constructor
      · intro _
        exact Or.inl rfl
      · intro _
        unfold calculate_entry
        rw [hfind]
    · intro ec ed hec
      cases hec
  | some ec =>
    have hmem : ec ∈ candles := List.mem_of_find?_eq_some hfind
    have hpos : 0 < entryPriceRaw cfg ec.Open bias :=
      entryPriceRaw_pos cfg ec.Open bias (hopen ec hmem) hs0 hs1
    have hqnn : 0 ≤ cfg.capital_per_trade / entryPriceRaw cfg ec.Open bias :=
      div_nonneg hcap (le_of_lt hpos)
    have htr : pytrunc (cfg.capital_per_trade / entryPriceRaw cfg ec.Open bias) =
        ⌊cfg.capital_per_trade / entryPriceRaw cfg ec.Open bias⌋ :=
      pytrunc_eq_floor hqnn
    constructor
    · constructor
      · intro hnone
        unfold calculate_entry at hnone
        rw [hfind] at hnone
        simp only at hnone
        by_cases hq : pytrunc (cfg.capital_per_trade /
            entryPriceRaw cfg ec.Open bias) = 0
        · exact Or.inr ⟨ec, rfl, htr.symm.trans hq⟩
        · rw [if_neg hq] at hnone
          cases hnone
      · intro hcases
        unfold calculate_entry
        rw [hfind]
        simp only
        rcases hcases with hnone | ⟨ec2, hec2, hq⟩
        · cases hnone
        · have hee : ec2 = ec := (Option.some_inj.mp hec2).symm
          subst hee
          rw [if_pos (htr.trans hq)]
    · intro ec2 ed hec2 hed
      have hee : ec2 = ec := (Option.some_inj.mp hec2).symm
      subst hee
      unfold calculate_entry at hed
      rw [hfind] at hed
      simp only at hed
      by_cases hq : pytrunc (cfg.capital_per_trade /
          entryPriceRaw cfg ec2.Open bias) = 0
      · rw [if_pos hq] at hed
        cases hed
      · rw [if_neg hq] at hed
        have hrec := Option.some_inj.mp hed
        refine ⟨by rw [← hrec], by rw [← hrec], ?_, by rw [← hrec]⟩
        rw [← hrec]
        exact htr

/-- C8 witness: with capital 10 per trade and an entry candle opening at
100, the floored quantity is 0 and `calculate_entry` returns none. -/
theorem C8_entry_absence_witness :
    calculate_entry ⟨100000, 10, 2, 4, 0, 0, 0, 900⟩ "X"
      [{ Time := 10, Open := 100, High := 101, Low := 99, Close := 100 }]
      Bias.BULLISH = none :=
  (C8_entry_absence ⟨100000, 10, 2, 4, 0, 0, 0, 900⟩ "X"
    [{ Time := 10, Open := 100, High := 101, Low := 99, Close := 100 }]
    Bias.BULLISH (by intro c hc; fin_cases hc; norm_num)
    (by norm_num) (by norm_num) (by norm_num)).1.mpr
    (Or.inr ⟨{ Time := 10, Open := 100, High := 101, Low := 99, Close := 100 },
      by norm_num [List.find?],
      by norm_num [entryPriceRaw, Int.floor_eq_zero_iff, Set.mem_Ico]⟩)

end Backtest
